import Mathlib

/-!
Verification development for the tg-bookmarks synchronization core
(src/db.py, src/telegram_client.py, src/main.py).

The Python source is shallowly embedded: the SQLite tables of db.py become
lists of records inside a `DB` structure, the module-level db functions
become pure state transformers, the Telethon remote source becomes explicit
input data (a list of difference responses, per-topic message streams, a
download oracle), and the media cache directory becomes an association list
from paths to file sizes.  Engines additionally emit a trace of the store
operations they perform, in the order the source performs them, so that
ordering properties (cursor persisted after page writes, prune after batch
upsert) can be stated about the trace.

Columns that the source only ever writes with the current wall-clock time
and never reads (`topics.last_synced`, `channel_state.date`) are not
modelled; the cursor row is modelled by its `pts` value alone.
-/

/-- A row of the `bookmarks` table (db.py, `bookmarks.create`). -/
structure Bm where
  id : Int
  topic_id : Int
  message_id : Int
  text : String
  media_path : Option String
  content_type : String
  date : String
  deriving Repr, DecidableEq

/-- A row of the `topics` table (db.py); the write-only `last_synced`
column is not modelled. -/
structure Topic where
  id : Int
  title : String
  deriving Repr, DecidableEq

/-- The persistent state of db.py: the three tables.  The singleton
`channel_state` row is modelled by its `pts` value (`none` = row absent). -/
structure DB where
  topics : List Topic
  bookmarks : List Bm
  channelPts : Option Int
  deriving Repr, DecidableEq

/-- The media cache directory: association list from path to file size in
bytes.  A key present with size 0 models a zero-byte artifact. -/
def FS := List (String × Nat)
  deriving Repr, DecidableEq

/-- `os.path.exists`. -/
def fsExists (fs : FS) (p : String) : Bool :=
  (List.lookup p fs).isSome

/-- `os.path.getsize` (only called on existing paths in the source). -/
def fsSize (fs : FS) (p : String) : Nat :=
  (List.lookup p fs).getD 0

/-- Writing a file of the given size at a path. -/
def fsWrite (fs : FS) (p : String) (sz : Nat) : FS :=
  (p, sz) :: (List.filter (fun e => !(e.1 == p)) fs)

/-- One store operation performed against db.py, recorded in engine
traces in execution order. -/
inductive StoreOp where
  | topicUp (id : Int) (title : String)
  | batchUp (items : List Bm)
  | delByIds (ids : List Int)
  | setPtsOp (p : Int)
  | pruneOp (topicId : Int) (activeIds : List Int)
  deriving Repr, DecidableEq

/-! ## db.py operations (pure state transformers) -/

/-- Row upsert keyed on the `id` primary key: replace the existing row in
place, or append a new one (fastlite `upsert` / `upsert_all` per row). -/
def tableUpsert (b : Bm) (rows : List Bm) : List Bm :=
  if rows.any (fun r => r.id == b.id) then
    rows.map (fun r => if r.id == b.id then b else r)
  else
    rows ++ [b]

/-- db.py `upsert_topic(topic_id, title)`. -/
def upsert_topic (topicId : Int) (title : String) (db : DB) : DB :=
  { db with topics :=
      if db.topics.any (fun t => t.id == topicId) then
        db.topics.map (fun t => if t.id == topicId then ⟨topicId, title⟩ else t)
      else
        db.topics ++ [⟨topicId, title⟩] }

/-- db.py `upsert_bookmark(message_id, topic_id, text, media_path,
content_type, date)`: uses `message_id` as the primary key `id` and also
stores it redundantly in the `message_id` column. -/
def upsert_bookmark (messageId topicId : Int) (text : String)
    (mediaPath : Option String) (contentType date : String) (db : DB) : DB :=
  let row : Bm :=
    { id := messageId, topic_id := topicId, message_id := messageId,
      text := text, media_path := mediaPath, content_type := contentType,
      date := date }
  { db with bookmarks := tableUpsert row db.bookmarks }

/-- db.py `upsert_bookmarks_batch(bookmarks_list)`: no-op on empty input,
otherwise `upsert_all` keyed on `id` (row-by-row upsert). -/
def upsert_bookmarks_batch (items : List Bm) (db : DB) : DB :=
  if items.isEmpty then db
  else { db with bookmarks := items.foldl (fun rows b => tableUpsert b rows) db.bookmarks }

/-- db.py `delete_bookmarks_by_ids(message_ids)`: no-op on empty input,
otherwise `DELETE FROM bookmarks WHERE id IN (...)` regardless of topic. -/
def delete_bookmarks_by_ids (ids : List Int) (db : DB) : DB :=
  if ids.isEmpty then db
  else { db with bookmarks := db.bookmarks.filter (fun b => !(ids.contains b.id)) }

/-- db.py `get_channel_pts` on a healthy store: the stored pts, or `None`
when the singleton row is absent.  (The fault behaviour of the bare
`except:` is modelled separately by `get_channel_pts_f` below.) -/
def get_channel_pts (db : DB) : Option Int :=
  db.channelPts

/-- db.py `set_channel_pts(pts)`: unconditional singleton-row upsert. -/
def set_channel_pts (p : Int) (db : DB) : DB :=
  { db with channelPts := some p }

/-- db.py `prune_bookmarks(topic_id, active_ids)`: with empty `active_ids`
deletes every bookmark of the topic, otherwise
`DELETE ... WHERE topic_id = ? AND id NOT IN (...)`. -/
def prune_bookmarks (topicId : Int) (activeIds : List Int) (db : DB) : DB :=
  if activeIds.isEmpty then
    { db with bookmarks := db.bookmarks.filter (fun b => !(b.topic_id == topicId)) }
  else
    { db with bookmarks :=
        db.bookmarks.filter (fun b => !(b.topic_id == topicId) || activeIds.contains b.id) }

/-- Replaying a recorded store operation against the store; used to tie
engine traces to engine result states. -/
def applyOp (db : DB) (op : StoreOp) : DB :=
  match op with
  | .topicUp i t => upsert_topic i t db
  | .batchUp items => upsert_bookmarks_batch items db
  | .delByIds ids => delete_bookmarks_by_ids ids db
  | .setPtsOp p => set_channel_pts p db
  | .pruneOp tid a => prune_bookmarks tid a db

/-! ## telegram_client.py: remote data model -/

/-- A Telethon message as consumed by the sync code.  `isService` marks
`MessageService` instances; `text` is `message.text` (`none` = Python
`None`); `replyTo` is `message.reply_to.reply_to_msg_id` with `none`
standing for an absent `reply_to`. -/
structure Msg where
  id : Int
  isService : Bool
  text : Option String
  replyTo : Option Int
  hasPhoto : Bool
  hasVideo : Bool
  date : String
  deriving Repr, DecidableEq

/-- One entry of `result.other_updates` in a channel-difference page. -/
inductive Upd where
  | newMsg (m : Msg)
  | edit (m : Msg)
  | del (ids : List Int)
  deriving Repr, DecidableEq

/-- The outcome of one `GetChannelDifferenceRequest`: the three response
classes the source dispatches on, plus `err` for a raised transport or
protocol exception. -/
inductive DiffResponse where
  | err
  | empty (pts : Int)
  | tooLong
  | page (newMessages : List Msg) (otherUpdates : List Upd) (pts : Int) (final : Bool)
  deriving Repr, DecidableEq

/-- One step of `iter_messages`: a yielded message, or the iteration
raising partway. -/
inductive IterItem where
  | msg (m : Msg)
  | iterErr
  deriving Repr, DecidableEq

/-- Result of one `client.download_media` call targeting a path:
`ok sz` = the file is written with `sz` bytes and the path is returned,
`noneRes` = Telethon returns `None`, `exc` = the call raises. -/
inductive DlRes where
  | ok (sz : Nat)
  | noneRes
  | exc
  deriving Repr, DecidableEq

/-- The download oracle: what `client.download_media` does for each target
path; an unlisted path raises. -/
def Net := List (String × DlRes)
  deriving Repr, DecidableEq

def netRes (net : Net) (p : String) : DlRes :=
  (List.lookup p net).getD .exc

/-- Python truthiness of `message.reply_to and message.reply_to.reply_to_msg_id`. -/
def replyTruthy (m : Msg) : Bool :=
  match m.replyTo with
  | some r => !(r == 0)
  | none => false

/-- Python truthiness of an optional pts (`None` and `0` are falsy). -/
def ptsTruthy (o : Option Int) : Bool :=
  match o with
  | some p => !(p == 0)
  | none => false

def photoPath (i : Int) : String := "media/" ++ toString i ++ ".jpg"

def thumbPath (i : Int) : String := "media/" ++ toString i ++ "_thumb.jpg"

def videoPath (i : Int) : String := "media/" ++ toString i ++ ".mp4"

/-- telegram_client.py `process_message_object(message, topic_id,
download=False)`: skips service messages, resolves the owning topic from
the reply reference (falling back to the passed topic id), classifies the
content type, and fills `media_path` from the cache only when a non-empty
file is already present.  (The `_msg_obj` reference kept in the Python
dict is passed alongside explicitly by the callers below.) -/
def process_message_object (fs : FS) (m : Msg) (topicId : Int)
    (download : Bool := false) : Option Bm :=
  if m.isService then none
  else
    let text := m.text.getD ""
    let msgTopicId := if replyTruthy m then m.replyTo.getD 0 else topicId
    let ctMp : String × Option String :=
      if m.hasPhoto then
        let path := photoPath m.id
        ("photo",
          if download && !(fsExists fs path) then none
          else if fsExists fs path && decide (0 < fsSize fs path) then some path
          else none)
      else if m.hasVideo then
        let tp := thumbPath m.id
        let vp := videoPath m.id
        ("video",
          if fsExists fs tp && decide (0 < fsSize fs tp) then some tp
          else if fsExists fs vp && decide (0 < fsSize fs vp) then some vp
          else none)
      else ("text", none)
    some { id := m.id, topic_id := msgTopicId, message_id := m.id, text := text,
           media_path := ctMp.2, content_type := ctMp.1, date := m.date }

/-- Result of `download_bookmark_media`: the (possibly updated) bookmark,
the media cache afterwards, and the list of download targets actually
requested from the remote source. -/
structure DlOut where
  bm : Bm
  fs : FS
  calls : List String
  deriving Repr, DecidableEq

/-- telegram_client.py `download_bookmark_media(client, bookmark,
download)`: pops the kept message object (`msgObj`); when downloading is
enabled, fetches the photo (or the video thumbnail) only if its
deterministic cache path does not exist, setting `media_path` on a
returned, existing file; download exceptions are caught and ignored. -/
def download_bookmark_media (net : Net) (msgObj : Option Msg) (bm : Bm)
    (download : Bool) (fs : FS) : DlOut :=
  match msgObj with
  | none => ⟨bm, fs, []⟩
  | some _ =>
    if !download then ⟨bm, fs, []⟩
    else if bm.content_type == "photo" then
      let path := photoPath bm.id
      if !(fsExists fs path) then
        match netRes net path with
        | .ok sz => ⟨{ bm with media_path := some path }, fsWrite fs path sz, [path]⟩
        | .noneRes => ⟨bm, fs, [path]⟩
        | .exc => ⟨bm, fs, [path]⟩
      else ⟨bm, fs, []⟩
    else if bm.content_type == "video" then
      let tp := thumbPath bm.id
      if !(fsExists fs tp) then
        match netRes net tp with
        | .ok sz => ⟨{ bm with media_path := some tp }, fsWrite fs tp sz, [tp]⟩
        | .noneRes => ⟨bm, fs, [tp]⟩
        | .exc => ⟨bm, fs, [tp]⟩
      else ⟨bm, fs, []⟩
    else ⟨bm, fs, []⟩

/-! ## Engines

Each engine returns its outcome flag, the store and media cache
afterwards, and the trace of store operations it performed, in execution
order.  For `sync_bookmarks_with_client` and `runTopics`, `ok = false`
means the body raised (the exception propagates to `run_sync`'s outer
handler); for the differential engine it is the source's `False` return. -/

structure SyncRes where
  ok : Bool
  db : DB
  fs : FS
  ops : List StoreOp
  deriving Repr, DecidableEq

/-- The `async for` loop body of `sync_bookmarks_with_client`: accumulates
`found_ids` and `bookmarks_buffer` without touching the bookmark store;
`.error` is the iteration raising partway, carrying the media cache at
that moment. -/
def fullSyncLoop (net : Net) (download : Bool) (topicId : Int) :
    List IterItem → FS → List Int → List Bm → Except FS (FS × List Int × List Bm)
  | [], fs, found, buf => .ok (fs, found, buf)
  | .iterErr :: _, fs, _, _ => .error fs
  | .msg m :: rest, fs, found, buf =>
    match process_message_object fs m topicId with
    | none => fullSyncLoop net download topicId rest fs found buf
    | some bm =>
      let d := download_bookmark_media net (some m) bm download fs
      fullSyncLoop net download topicId rest d.fs (found ++ [m.id]) (buf ++ [d.bm])

/-- telegram_client.py `sync_bookmarks_with_client`: iterate the topic's
history, then batch-upsert the buffer (when non-empty) and always prune.
The `stream` is the finite sequence `iter_messages` yields (the source's
`limit` bounding is part of producing this sequence); the unread
`photos_only` parameter of the source is omitted. -/
def sync_bookmarks_with_client (net : Net) (download : Bool)
    (stream : List IterItem) (topicId : Int) (db : DB) (fs : FS) : SyncRes :=
  match fullSyncLoop net download topicId stream fs [] [] with
  | .error fsE => ⟨false, db, fsE, []⟩
  | .ok (fs', found, buf) =>
    let s₁ : DB × List StoreOp :=
      if buf.isEmpty then (db, [])
      else (upsert_bookmarks_batch buf db, [StoreOp.batchUp buf])
    ⟨true, prune_bookmarks topicId found s₁.1, fs', s₁.2 ++ [StoreOp.pruneOp topicId found]⟩

/-- The `for message in result.new_messages` loop of
`sync_from_difference`: resolve the topic from the reply reference, with
the `message.id == 1` fallback, dropping unplaceable messages; process and
download each kept message. -/
def processNewMessages (net : Net) (download : Bool) :
    List Msg → FS → FS × List Bm
  | [], fs => (fs, [])
  | m :: rest, fs =>
    let topicOpt : Option Int :=
      if replyTruthy m then some (m.replyTo.getD 0)
      else if m.id == 1 then some 1
      else none
    match topicOpt with
    | none => processNewMessages net download rest fs
    | some t =>
      match process_message_object fs m t with
      | none => processNewMessages net download rest fs
      | some bm =>
        let d := download_bookmark_media net (some m) bm download fs
        let r := processNewMessages net download rest d.fs
        (r.1, d.bm :: r.2)

/-- The `for update in result.other_updates` loop: edits are re-processed
like new messages (but without the id-1 fallback), deletions accumulate
message ids, `UpdateNewChannelMessage` entries are ignored. -/
def processOtherUpdates (net : Net) (download : Bool) :
    List Upd → FS → FS × List Bm × List Int
  | [], fs => (fs, [], [])
  | .newMsg _ :: rest, fs => processOtherUpdates net download rest fs
  | .del ids :: rest, fs =>
    let r := processOtherUpdates net download rest fs
    (r.1, r.2.1, ids ++ r.2.2)
  | .edit m :: rest, fs =>
    let topicOpt : Option Int :=
      if replyTruthy m then some (m.replyTo.getD 0) else none
    match topicOpt with
    | none => processOtherUpdates net download rest fs
    | some t =>
      match process_message_object fs m t with
      | none => processOtherUpdates net download rest fs
      | some bm =>
        let d := download_bookmark_media net (some m) bm download fs
        let r := processOtherUpdates net download rest d.fs
        (r.1, d.bm :: r.2.1, r.2.2)

/-- Collecting one page's data: the new/edited bookmarks (new messages
first, edits after, as in the source) and the deleted ids. -/
def pageData (net : Net) (download : Bool) (fs : FS)
    (nm : List Msg) (up : List Upd) : FS × List Bm × List Int :=
  let pn := processNewMessages net download nm fs
  let po := processOtherUpdates net download up pn.1
  (po.1, pn.2 ++ po.2.1, po.2.2)

/-- The page's data writes: batch upsert (when non-empty) then delete by
ids (when non-empty) — everything the source does to the store for one
page before touching the cursor. -/
def pageDataApply (nbs : List Bm) (dels : List Int) (db : DB) : DB × List StoreOp :=
  let s₁ : DB × List StoreOp :=
    if nbs.isEmpty then (db, [])
    else (upsert_bookmarks_batch nbs db, [StoreOp.batchUp nbs])
  if dels.isEmpty then s₁
  else (delete_bookmarks_by_ids dels s₁.1, s₁.2 ++ [StoreOp.delByIds dels])

structure PageOut where
  db : DB
  fs : FS
  ops : List StoreOp
  deriving Repr, DecidableEq

/-- Applying one `Page` response: data writes first, then
`set_channel_pts(result.pts)`. -/
def applyDiffPage (net : Net) (download : Bool) (db : DB) (fs : FS)
    (nm : List Msg) (up : List Upd) (rpts : Int) : PageOut :=
  let pd := pageData net download fs nm up
  let s := pageDataApply pd.2.1 pd.2.2 db
  ⟨set_channel_pts rpts s.1, pd.1, s.2 ++ [StoreOp.setPtsOp rpts]⟩

/-- The `while True` loop of `sync_from_difference`, driven by the finite
sequence of remote responses (a well-formed run ends in a terminal
response; an exhausted list is treated like a failed request).  `pts` is
the loop variable. -/
def diffLoop (net : Net) (download : Bool) :
    List DiffResponse → Int → DB → FS → SyncRes
  | [], _, db, fs => ⟨false, db, fs, []⟩
  | .err :: _, _, db, fs => ⟨false, db, fs, []⟩
  | .tooLong :: _, _, db, fs => ⟨false, db, fs, []⟩
  | .empty rpts :: _, pts, db, fs =>
    if rpts > pts then ⟨true, set_channel_pts rpts db, fs, [StoreOp.setPtsOp rpts]⟩
    else ⟨true, db, fs, []⟩
  | .page nm up rpts fin :: rest, _, db, fs =>
    let po := applyDiffPage net download db fs nm up rpts
    if fin then ⟨true, po.db, po.fs, po.ops⟩
    else
      let out := diffLoop net download rest rpts po.db po.fs
      ⟨out.ok, out.db, out.fs, po.ops ++ out.ops⟩

/-- telegram_client.py `sync_from_difference`: reads the stored pts and
signals "full sync required" on a falsy cursor (`None` or `0`), otherwise
runs the difference loop from it. -/
def sync_from_difference (net : Net) (download : Bool) (db : DB) (fs : FS)
    (rs : List DiffResponse) : SyncRes :=
  let pts := get_channel_pts db
  if !(ptsTruthy pts) then ⟨false, db, fs, []⟩
  else diffLoop net download rs (pts.getD 0) db fs

/-! ## Orchestrator (telegram_client.py `run_sync`) -/

/-- Per-topic `iter_messages` streams, keyed by topic id (missing key =
empty history). -/
def Streams := List (Int × List IterItem)
  deriving Repr, DecidableEq

def streamOf (streams : Streams) (topicId : Int) : List IterItem :=
  (List.lookup topicId streams).getD []

/-- The remote world one `run_sync` call observes. `topicsReq = none`
models `get_entity`/`GetForumTopicsRequest` raising; `fullChatPts = none`
models `GetFullChannelRequest` raising. -/
structure Env where
  authorized : Bool
  topicsReq : Option (List Topic)
  diff : List DiffResponse
  streams : Streams
  fullChatPts : Option Int
  net : Net
  deriving Repr

/-- The `for topic in result.topics` fallback loop of `run_sync`: no
per-topic handler, so a topic whose sync raises stops the loop and the
exception propagates (remaining topics are not visited). -/
def runTopics (net : Net) (download : Bool) (streams : Streams) :
    List Topic → DB → FS → SyncRes
  | [], db, fs => ⟨true, db, fs, []⟩
  | t :: rest, db, fs =>
    let r := sync_bookmarks_with_client net download (streamOf streams t.id) t.id db fs
    if r.ok then
      let r₂ := runTopics net download streams rest r.db r.fs
      ⟨r₂.ok, r₂.db, r₂.fs, r.ops ++ r₂.ops⟩
    else ⟨false, r.db, r.fs, r.ops⟩

/-- telegram_client.py `run_sync`: authorization check, refresh topics,
attempt differential sync (unless `full_sync` forces the fallback), on
failure run the per-topic full sync and re-baseline the cursor from
`GetFullChannelRequest` (whose own failure is caught and ignored).  Any
exception from the topic loop reaches the outer handler, which returns
`False`.  The source's unread `photos_only` parameter is omitted. -/
def run_sync (env : Env) (download full_sync : Bool) (db : DB) (fs : FS) : SyncRes :=
  if !env.authorized then ⟨false, db, fs, []⟩
  else
    match env.topicsReq with
    | none => ⟨false, db, fs, []⟩
    | some ts =>
      let db₁ := ts.foldl (fun d t => upsert_topic t.id t.title d) db
      let ops₁ := ts.map (fun t => StoreOp.topicUp t.id t.title)
      let dres :=
        if full_sync then (⟨false, db₁, fs, []⟩ : SyncRes)
        else sync_from_difference env.net download db₁ fs env.diff
      if dres.ok then ⟨true, dres.db, dres.fs, ops₁ ++ dres.ops⟩
      else
        let fres := runTopics env.net download env.streams ts dres.db dres.fs
        if fres.ok then
          match env.fullChatPts with
          | some p =>
            ⟨true, set_channel_pts p fres.db, fres.fs,
              ops₁ ++ dres.ops ++ fres.ops ++ [StoreOp.setPtsOp p]⟩
          | none => ⟨true, fres.db, fres.fs, ops₁ ++ dres.ops ++ fres.ops⟩
        else ⟨false, fres.db, fres.fs, ops₁ ++ dres.ops ++ fres.ops⟩

/-! ## Web trigger (main.py `post_sync`) -/

/-- Flag lifecycle events of one `post_sync` invocation, in order. -/
inductive SyncEv where
  | flagSet
  | runStarted
  | flagCleared
  deriving Repr, DecidableEq

/-- The distinct user-visible statuses `post_sync` returns. -/
inductive SyncStatus where
  | alreadyRunning
  | complete
  | failedTerminal
  | failedCredentials
  deriving Repr, DecidableEq

/-- main.py `post_sync`: bail out with "already in progress" if the flag
is set, otherwise set the flag, run the sync, and clear the flag on every
exit path (`runResult = none` models `run_sync`/loop setup raising: the
`except` branch clears the flag and the `finally` clears it again). -/
def post_sync (inProgress : Bool) (runResult : Option Bool) :
    SyncStatus × Bool × List SyncEv :=
  if inProgress then (.alreadyRunning, inProgress, [])
  else
    match runResult with
    | none => (.failedTerminal, false, [.flagSet, .runStarted, .flagCleared, .flagCleared])
    | some true => (.complete, false, [.flagSet, .runStarted, .flagCleared])
    | some false => (.failedCredentials, false, [.flagSet, .runStarted, .flagCleared])

/-! ## Storage-fault model (db.py error propagation)

Each db.py function is re-stated with an explicit `fault` input saying
whether the underlying SQLite call fails with an I/O fault during this
operation.  Functions without a handler turn the fault into a propagated
`StorageError`; `get_channel_pts`, whose body is wrapped in a bare
`except: return None`, turns every exception into `None`. -/

inductive StorageError where
  | ioFault
  deriving Repr, DecidableEq

/-- Exceptions the storage layer can raise under `channel_state.get(1)`:
the row being absent (fastlite's not-found error) or an I/O fault. -/
inductive PyExc where
  | notFound
  | ioErr
  deriving Repr, DecidableEq

/-- The raw `channel_state.get(1)` call. -/
def channel_state_get (fault : Bool) (st : Option Int) : Except PyExc Int :=
  if fault then .error .ioErr
  else
    match st with
    | none => .error .notFound
    | some p => .ok p

/-- db.py `get_channel_pts` under the fault model: the bare `except:`
catches everything — a missing row and an I/O fault are indistinguishable,
both yield `None`. -/
def get_channel_pts_f (fault : Bool) (st : Option Int) : Option Int :=
  match channel_state_get fault st with
  | .ok p => some p
  | .error _ => none

/-- db.py `set_channel_pts` has no handler: a fault propagates. -/
def set_channel_pts_f (fault : Bool) (p : Int) (db : DB) : Except StorageError DB :=
  if fault then .error .ioFault else .ok (set_channel_pts p db)

/-- db.py `upsert_bookmarks_batch` has no handler: a fault propagates. -/
def upsert_bookmarks_batch_f (fault : Bool) (items : List Bm) (db : DB) :
    Except StorageError DB :=
  if fault then .error .ioFault else .ok (upsert_bookmarks_batch items db)

/-- db.py `delete_bookmarks_by_ids` has no handler: a fault propagates. -/
def delete_bookmarks_by_ids_f (fault : Bool) (ids : List Int) (db : DB) :
    Except StorageError DB :=
  if fault then .error .ioFault else .ok (delete_bookmarks_by_ids ids db)

/-- db.py `prune_bookmarks` has no handler: a fault propagates. -/
def prune_bookmarks_f (fault : Bool) (topicId : Int) (activeIds : List Int) (db : DB) :
    Except StorageError DB :=
  if fault then .error .ioFault else .ok (prune_bookmarks topicId activeIds db)

/-- db.py `upsert_bookmark` has no handler: a fault propagates. -/
def upsert_bookmark_f (fault : Bool) (messageId topicId : Int) (text : String)
    (mediaPath : Option String) (contentType date : String) (db : DB) :
    Except StorageError DB :=
  if fault then .error .ioFault
  else .ok (upsert_bookmark messageId topicId text mediaPath contentType date db)

/-- db.py `upsert_topic` has no handler: a fault propagates. -/
def upsert_topic_f (fault : Bool) (topicId : Int) (title : String) (db : DB) :
    Except StorageError DB :=
  if fault then .error .ioFault else .ok (upsert_topic topicId title db)

/-! ## Helper lemmas -/

/-- The data writes of one difference page are batch upserts and deletes
only — never a cursor write. -/
theorem pageDataApply_ops_no_setPts (nbs : List Bm) (dels : List Int) (db : DB) :
    ∀ op ∈ (pageDataApply nbs dels db).2, ∀ q, op ≠ StoreOp.setPtsOp q := by
  intro op hop q
  unfold pageDataApply at hop
  by_cases hn : nbs.isEmpty <;> by_cases hd : dels.isEmpty <;> simp [hn, hd] at hop
  all_goals first
    | (rcases hop with h | h <;> simp [h])
    | simp [hop]

/-! ## Sanity checks on concrete inputs -/

example : fsExists [("media/5.jpg", 0)] "media/5.jpg" = true := by decide
example : photoPath 5 = "media/5.jpg" := by decide
example :
    (sync_from_difference [] false ⟨[], [], some 5⟩ [] [.empty 7]).db.channelPts
      = some 7 := by decide
example :
    (sync_from_difference [] false ⟨[], [], none⟩ [] [.empty 7]) =
      ⟨false, ⟨[], [], none⟩, [], []⟩ := by decide
example :
    (sync_from_difference [] false ⟨[], [], some 5⟩ []
      [.page [⟨8, false, some "hi", some 3, false, false, "d"⟩] [] 6 true]).db.bookmarks
      = [⟨8, 3, 8, "hi", none, "text", "d"⟩] := by decide
example : fsSize [("media/5.jpg", 0)] "media/5.jpg" = 0 := by decide
example :
    (prune_bookmarks 1 [5, 9]
      ⟨[], [⟨5, 1, 5, "a", none, "text", "d"⟩, ⟨7, 1, 7, "b", none, "text", "d"⟩,
            ⟨9, 1, 9, "c", none, "text", "d"⟩, ⟨3, 2, 3, "e", none, "text", "d"⟩], none⟩).bookmarks
    = [⟨5, 1, 5, "a", none, "text", "d"⟩, ⟨9, 1, 9, "c", none, "text", "d"⟩,
       ⟨3, 2, 3, "e", none, "text", "d"⟩] := by decide

/-! ## Claims -/

/-- C1: in the differential sync engine, each Page response's cursor write
(`set_channel_pts result.pts`) is performed only after that page's batch
upsert and deleted-ids delete: the page's data ops contain no cursor
write, the page trace ends with the cursor write, and the page's result
state is the cursor write applied on top of the data-applied state; a
transport/protocol error on the difference request makes the engine report
failure with the store exactly as it was at the failed request — no
cursor advancement by the error, at any loop position and from the top
level. -/
theorem diff_cursor_persisted_after_page_writes :
    ∀ (net : Net) (dl : Bool) (db : DB) (fs : FS) (nm : List Msg) (up : List Upd)
      (rpts pts : Int) (fin : Bool) (rest : List DiffResponse),
      (∀ op ∈ (pageDataApply (pageData net dl fs nm up).2.1 (pageData net dl fs nm up).2.2 db).2,
          ∀ q, op ≠ StoreOp.setPtsOp q)
      ∧ (applyDiffPage net dl db fs nm up rpts).ops
          = (pageDataApply (pageData net dl fs nm up).2.1 (pageData net dl fs nm up).2.2 db).2
              ++ [StoreOp.setPtsOp rpts]
      ∧ (applyDiffPage net dl db fs nm up rpts).db
          = set_channel_pts rpts
              (pageDataApply (pageData net dl fs nm up).2.1 (pageData net dl fs nm up).2.2 db).1
      ∧ (diffLoop net dl (.page nm up rpts fin :: rest) pts db fs).ops
          = (applyDiffPage net dl db fs nm up rpts).ops
              ++ (if fin then []
                  else (diffLoop net dl rest rpts (applyDiffPage net dl db fs nm up rpts).db
                          (applyDiffPage net dl db fs nm up rpts).fs).ops)
      ∧ diffLoop net dl (.err :: rest) pts db fs = ⟨false, db, fs, []⟩
      ∧ sync_from_difference net dl db fs (.err :: rest) = ⟨false, db, fs, []⟩ := by
  intro net dl db fs nm up rpts pts fin rest
  refine ⟨pageDataApply_ops_no_setPts _ _ _, rfl, rfl, ?_, rfl, ?_⟩
  · show (diffLoop net dl (.page nm up rpts fin :: rest) pts db fs).ops = _
    unfold diffLoop
    by_cases h : fin <;> simp [h]
    cases rest with
    | nil => rfl
    | cons r rs => cases r <;> rfl
  · unfold sync_from_difference
    by_cases h : ptsTruthy (get_channel_pts db) <;> simp [h, diffLoop]

/-- C1 witness: the properties at a concrete page and a concrete erroring
request. -/
theorem diff_cursor_persisted_after_page_writes_witness :
    (applyDiffPage [] false ⟨[], [], some 5⟩ []
        [⟨8, false, some "hi", some 3, false, false, "d"⟩] [] 6).ops
      = (pageDataApply
            (pageData [] false []
              [⟨8, false, some "hi", some 3, false, false, "d"⟩] []).2.1
            (pageData [] false []
              [⟨8, false, some "hi", some 3, false, false, "d"⟩] []).2.2
            ⟨[], [], some 5⟩).2 ++ [StoreOp.setPtsOp 6]
    ∧ diffLoop [] false [.err] 5 ⟨[], [], some 5⟩ [] = ⟨false, ⟨[], [], some 5⟩, [], []⟩
    ∧ sync_from_difference [] false ⟨[], [], some 5⟩ [] [.err]
        = ⟨false, ⟨[], [], some 5⟩, [], []⟩ :=
  ⟨(diff_cursor_persisted_after_page_writes [] false ⟨[], [], some 5⟩ []
      [⟨8, false, some "hi", some 3, false, false, "d"⟩] [] 6 5 true []).2.1,
   (diff_cursor_persisted_after_page_writes [] false ⟨[], [], some 5⟩ []
      [⟨8, false, some "hi", some 3, false, false, "d"⟩] [] 6 5 true []).2.2.2.2.1,
   (diff_cursor_persisted_after_page_writes [] false ⟨[], [], some 5⟩ []
      [⟨8, false, some "hi", some 3, false, false, "d"⟩] [] 6 5 true []).2.2.2.2.2⟩

/-- Concrete store used by the prune-correctness witness. -/
def dbC3 : DB :=
  ⟨[], [⟨5, 1, 5, "a", none, "text", "d"⟩, ⟨7, 1, 7, "b", none, "text", "d"⟩,
        ⟨9, 1, 9, "c", none, "text", "d"⟩, ⟨3, 2, 3, "e", none, "text", "d"⟩], none⟩

/-- C3: `prune_bookmarks(T, A)` keeps exactly the rows that are of another
topic or whose id is in `A`; consequently the surviving rows of topic `T`
are exactly the previously present rows of `T` with id in `A`, an empty
`A` deletes all of topic `T`, and rows of any other topic (and the other
tables) are untouched. -/
theorem prune_bookmarks_correct :
    ∀ (tid : Int) (active : List Int) (db : DB),
      (prune_bookmarks tid active db).bookmarks
        = db.bookmarks.filter (fun b => !(b.topic_id == tid) || active.contains b.id)
      ∧ (prune_bookmarks tid ([] : List Int) db).bookmarks
        = db.bookmarks.filter (fun b => !(b.topic_id == tid))
      ∧ (prune_bookmarks tid active db).bookmarks.filter (fun b => b.topic_id == tid)
        = db.bookmarks.filter (fun b => b.topic_id == tid && active.contains b.id)
      ∧ (prune_bookmarks tid active db).topics = db.topics
      ∧ (prune_bookmarks tid active db).channelPts = db.channelPts
      ∧ ∀ t', t' ≠ tid →
          (prune_bookmarks tid active db).bookmarks.filter (fun b => b.topic_id == t')
            = db.bookmarks.filter (fun b => b.topic_id == t') := by
  intro tid active db
  have hmain : (prune_bookmarks tid active db).bookmarks
      = db.bookmarks.filter (fun b => !(b.topic_id == tid) || active.contains b.id) := by
    unfold prune_bookmarks
    cases active with
    | nil => simp
    | cons a as => simp
  have htid : (prune_bookmarks tid active db).topics = db.topics := by
    unfold prune_bookmarks
    cases active with
    | nil => simp
    | cons a as => simp
  have hpts : (prune_bookmarks tid active db).channelPts = db.channelPts := by
    unfold prune_bookmarks
    cases active with
    | nil => simp
    | cons a as => simp
  refine ⟨hmain, ?_, ?_, htid, hpts, ?_⟩
  · unfold prune_bookmarks
    simp
  · rw [hmain, List.filter_filter]
    apply List.filter_congr
    intro b _
    cases hb : (b.topic_id == tid) <;> cases hc : active.contains b.id <;> simp [hb, hc]
  · intro t' ht'
    rw [hmain, List.filter_filter]
    apply List.filter_congr
    intro b _
    cases hb : (b.topic_id == t')
    · simp [hb]
    · have hbt : b.topic_id = t' := beq_iff_eq.mp hb
      have : (b.topic_id == tid) = false := by
        rw [hbt]
        exact beq_eq_false_iff_ne.mpr ht'
      simp [this, hb]

/-- C3 witness: pruning topic 1 down to `{5, 9}` in a concrete store
leaves topic 2 untouched. -/
theorem prune_bookmarks_correct_witness :
    (prune_bookmarks 1 [5, 9] dbC3).bookmarks.filter (fun b => b.topic_id == 2)
      = dbC3.bookmarks.filter (fun b => b.topic_id == 2) :=
  (prune_bookmarks_correct 1 [5, 9] dbC3).2.2.2.2.2 2 (by decide)

/-- A photo message whose deterministic cache path exists as a zero-byte
file. -/
def msg5 : Msg := ⟨5, false, some "pic", none, true, false, "2024-01-01"⟩

/-- Media cache holding the zero-byte artifact `media/5.jpg`. -/
def fsZero : FS := [("media/5.jpg", 0)]

/-- Oracle under which re-downloading `media/5.jpg` would succeed with a
100-byte file. -/
def netOk5 : Net := [("media/5.jpg", .ok 100)]

/-- The bookmark `process_message_object` builds for `msg5` in topic 10. -/
def bm5 : Bm := ⟨5, 10, 5, "pic", none, "photo", "2024-01-01"⟩

/-- C5 evaluation at the failing input: with `media/5.jpg` present as a
zero-byte file and a re-download that would succeed, the fetch path issues
no download call (`calls = []`), leaves the zero-byte artifact in place
(`fs` unchanged) and keeps `media_path = none` — the zero-byte entry is
treated as already fetched instead of being deleted and re-fetched as the
claim requires. -/
theorem media_zero_byte_not_refetched :
    process_message_object fsZero msg5 10 = some bm5
    ∧ download_bookmark_media netOk5 (some msg5) bm5 true fsZero
        = ⟨bm5, fsZero, []⟩ := by
  constructor
  · decide
  · decide

/-- C8: the run flag makes a busy trigger return the distinct
"already running" status immediately, with no flag write, no sync run and
hence no store access; a proceeding trigger sets the flag before the run
starts and ends with the flag cleared on all three exit paths (success,
failed run, raised exception). -/
theorem post_sync_flag_lifecycle :
    (∀ r, post_sync true r = (.alreadyRunning, true, ([] : List SyncEv)))
    ∧ post_sync false (some true)
        = (.complete, false, [.flagSet, .runStarted, .flagCleared])
    ∧ post_sync false (some false)
        = (.failedCredentials, false, [.flagSet, .runStarted, .flagCleared])
    ∧ post_sync false none
        = (.failedTerminal, false, [.flagSet, .runStarted, .flagCleared, .flagCleared]) :=
  ⟨fun _ => rfl, rfl, rfl, rfl⟩

/-- C9 counterexample: an I/O fault during the cursor read is swallowed by
`get_channel_pts`'s bare `except:` and reported as the normal value `None`
("no cursor") — with pts 7 stored, a faulted read returns exactly what a
missing-row read returns, instead of propagating a StorageError. -/
theorem get_channel_pts_fault_swallowed :
    get_channel_pts_f true (some 7) = none
    ∧ get_channel_pts_f false (some 7) = some 7
    ∧ get_channel_pts_f false none = none := by
  decide

/-- C9 amended: every LocalStore mutation (cursor write, batch upsert,
delete-by-ids, prune, single upsert, topic upsert) propagates an I/O fault
as a StorageError, but the cursor read `get_channel_pts` catches every
exception and returns `None`, converting a storage fault into the normal
"no cursor" answer. -/
theorem localstore_fault_propagation :
    ∀ (p mid tid : Int) (ids active : List Int) (items : List Bm)
      (txt ct dt ttl : String) (mp : Option String) (db : DB) (st : Option Int),
      set_channel_pts_f true p db = .error .ioFault
      ∧ upsert_bookmarks_batch_f true items db = .error .ioFault
      ∧ delete_bookmarks_by_ids_f true ids db = .error .ioFault
      ∧ prune_bookmarks_f true tid active db = .error .ioFault
      ∧ upsert_bookmark_f true mid tid txt mp ct dt db = .error .ioFault
      ∧ upsert_topic_f true tid ttl db = .error .ioFault
      ∧ set_channel_pts_f false p db = .ok (set_channel_pts p db)
      ∧ upsert_bookmarks_batch_f false items db = .ok (upsert_bookmarks_batch items db)
      ∧ get_channel_pts_f true st = none :=
  fun _ _ _ _ _ _ _ _ _ _ _ _ _ =>
    ⟨rfl, rfl, rfl, rfl, rfl, rfl, rfl, rfl, rfl⟩

/-- Empty example store shared by several witnesses. -/
def dbEmpty : DB := ⟨[], [], none⟩

/-! ### Unfolding equations for the recursive engines -/

theorem diffLoop_nil (net : Net) (dl : Bool) (pts : Int) (db : DB) (fs : FS) :
    diffLoop net dl [] pts db fs = ⟨false, db, fs, []⟩ := rfl

theorem diffLoop_err (net : Net) (dl : Bool) (rest : List DiffResponse)
    (pts : Int) (db : DB) (fs : FS) :
    diffLoop net dl (.err :: rest) pts db fs = ⟨false, db, fs, []⟩ := rfl

theorem diffLoop_tooLong (net : Net) (dl : Bool) (rest : List DiffResponse)
    (pts : Int) (db : DB) (fs : FS) :
    diffLoop net dl (.tooLong :: rest) pts db fs = ⟨false, db, fs, []⟩ := rfl

theorem diffLoop_empty_eq (net : Net) (dl : Bool) (rpts : Int)
    (rest : List DiffResponse) (pts : Int) (db : DB) (fs : FS) :
    diffLoop net dl (.empty rpts :: rest) pts db fs =
      if rpts > pts then ⟨true, set_channel_pts rpts db, fs, [StoreOp.setPtsOp rpts]⟩
      else ⟨true, db, fs, []⟩ := rfl

theorem diffLoop_page_eq (net : Net) (dl : Bool) (nm : List Msg) (up : List Upd)
    (rpts : Int) (fin : Bool) (rest : List DiffResponse) (pts : Int) (db : DB) (fs : FS) :
    diffLoop net dl (.page nm up rpts fin :: rest) pts db fs =
      (let po := applyDiffPage net dl db fs nm up rpts
       if fin then ⟨true, po.db, po.fs, po.ops⟩
       else
         let out := diffLoop net dl rest rpts po.db po.fs
         ⟨out.ok, out.db, out.fs, po.ops ++ out.ops⟩) := rfl

theorem fullSyncLoop_cons_msg (net : Net) (dl : Bool) (tid : Int) (m : Msg)
    (rest : List IterItem) (fs : FS) (found : List Int) (buf : List Bm) :
    fullSyncLoop net dl tid (.msg m :: rest) fs found buf =
      (match process_message_object fs m tid with
       | none => fullSyncLoop net dl tid rest fs found buf
       | some bm =>
         let d := download_bookmark_media net (some m) bm dl fs
         fullSyncLoop net dl tid rest d.fs (found ++ [m.id]) (buf ++ [d.bm])) := rfl

theorem runTopics_cons (net : Net) (dl : Bool) (streams : Streams) (t : Topic)
    (rest : List Topic) (db : DB) (fs : FS) :
    runTopics net dl streams (t :: rest) db fs =
      (let r := sync_bookmarks_with_client net dl (streamOf streams t.id) t.id db fs
       if r.ok then
         let r₂ := runTopics net dl streams rest r.db r.fs
         ⟨r₂.ok, r₂.db, r₂.fs, r.ops ++ r₂.ops⟩
       else ⟨false, r.db, r.fs, r.ops⟩) := rfl

/-- If the topic iteration raises at any point, the accumulation loop
raises: it never reaches the store. -/
theorem fullSyncLoop_err_of_mem :
    ∀ (items : List IterItem) (net : Net) (dl : Bool) (tid : Int) (fs : FS)
      (found : List Int) (buf : List Bm),
      IterItem.iterErr ∈ items →
      ∃ fsE, fullSyncLoop net dl tid items fs found buf = .error fsE := by
  intro items
  induction items with
  | nil => intro net dl tid fs found buf h; simp at h
  | cons it rest ih =>
    intro net dl tid fs found buf h
    cases it with
    | iterErr => exact ⟨fs, rfl⟩
    | msg m =>
      have hr : IterItem.iterErr ∈ rest := by
        rcases List.mem_cons.mp h with h1 | h1
        · simp at h1
        · exact h1
      rw [fullSyncLoop_cons_msg]
      cases hp : process_message_object fs m tid with
      | none => exact ih net dl tid fs found buf hr
      | some bm => exact ih net dl tid _ _ _ hr

/-- A raising topic iteration makes the whole engine raise with the
mirror unchanged and an empty trace (shared workhorse). -/
theorem sync_bookmarks_raises_uncommitted (net : Net) (dl : Bool) (tid : Int)
    (db : DB) (fs : FS) (stream : List IterItem)
    (h : IterItem.iterErr ∈ stream) :
    ∃ fsE, sync_bookmarks_with_client net dl stream tid db fs
      = ⟨false, db, fsE, []⟩ := by
  obtain ⟨fsE, hE⟩ := fullSyncLoop_err_of_mem stream net dl tid fs [] [] h
  refine ⟨fsE, ?_⟩
  unfold sync_bookmarks_with_client
  rw [hE]

/-- C2: if the remote iteration over a topic's history raises after any
number of processed messages, the engine raises without committing: the
mirror is returned exactly as it was before the run, and no store
operation (no batch upsert, no prune) was performed. -/
theorem full_sync_partial_failure_no_commit :
    ∀ (net : Net) (dl : Bool) (tid : Int) (db : DB) (fs : FS) (stream : List IterItem),
      IterItem.iterErr ∈ stream →
      ∃ fsE, sync_bookmarks_with_client net dl stream tid db fs
        = ⟨false, db, fsE, []⟩ :=
  fun net dl tid db fs stream h =>
    sync_bookmarks_raises_uncommitted net dl tid db fs stream h

/-- C2 witness: a topic stream that yields one message and then raises
leaves the concrete mirror untouched with an empty trace. -/
theorem full_sync_partial_failure_no_commit_witness :
    ∃ fsE, sync_bookmarks_with_client [] false
      [IterItem.msg ⟨4, false, some "t", some 1, false, false, "d"⟩, IterItem.iterErr]
      1 dbEmpty [] = ⟨false, dbEmpty, fsE, []⟩ :=
  full_sync_partial_failure_no_commit [] false 1 dbEmpty []
    [IterItem.msg ⟨4, false, some "t", some 1, false, false, "d"⟩, IterItem.iterErr]
    (by decide)

/-- The pts carried by a difference response, when it carries one. -/
def respPts : DiffResponse → Option Int
  | .empty p => some p
  | .page _ _ p _ => some p
  | .err => none
  | .tooLong => none

/-- Lower bound on the stored cursor across the difference loop: if every
response pts is at least `p₀` and the stored cursor starts at least `p₀`,
the stored cursor stays a value at least `p₀`. -/
theorem diffLoop_cursor_lower_bound :
    ∀ (rs : List DiffResponse) (net : Net) (dl : Bool) (pts c p₀ : Int)
      (db : DB) (fs : FS),
      (∀ r ∈ rs, ∀ q, respPts r = some q → p₀ ≤ q) →
      db.channelPts = some c → p₀ ≤ c →
      ∃ c', (diffLoop net dl rs pts db fs).db.channelPts = some c' ∧ p₀ ≤ c' := by
  intro rs
  induction rs with
  | nil => intro net dl pts c p₀ db fs hresp hdb hc; exact ⟨c, hdb, hc⟩
  | cons r rest ih =>
    intro net dl pts c p₀ db fs hresp hdb hc
    have hrest : ∀ r' ∈ rest, ∀ q, respPts r' = some q → p₀ ≤ q :=
      fun r' hr' => hresp r' (List.mem_cons_of_mem _ hr')
    cases r with
    | err => exact ⟨c, hdb, hc⟩
    | tooLong => exact ⟨c, hdb, hc⟩
    | empty rpts =>
      have hp : p₀ ≤ rpts := hresp _ (List.mem_cons_self _ _) rpts rfl
      rw [diffLoop_empty_eq]
      by_cases hgt : rpts > pts
      · rw [if_pos hgt]
        exact ⟨rpts, rfl, hp⟩
      · rw [if_neg hgt]
        exact ⟨c, hdb, hc⟩
    | page nm up rpts fin =>
      have hp : p₀ ≤ rpts := hresp _ (List.mem_cons_self _ _) rpts rfl
      have hdb' : (applyDiffPage net dl db fs nm up rpts).db.channelPts = some rpts := rfl
      rw [diffLoop_page_eq]
      by_cases hf : fin
      · simp only [hf, if_true]
        exact ⟨rpts, hdb', hp⟩
      · simp only [hf, if_false, Bool.false_eq_true]
        exact ih net dl rpts rpts p₀ _ _ hrest hdb' hp

/-- C7: cursor monotonicity — for a differential run whose responses are
protocol-conformant (every pts they carry is at least the initially stored
pts, as the remote's monotonically increasing position token guarantees),
a successful run leaves a stored pts that is at least the stored pts
before the run; the Empty branch advances only on a strictly newer pts. -/
theorem diff_cursor_monotone :
    ∀ (net : Net) (dl : Bool) (db : DB) (fs : FS) (rs : List DiffResponse) (p₀ : Int),
      db.channelPts = some p₀ →
      (∀ r ∈ rs, ∀ q, respPts r = some q → p₀ ≤ q) →
      (sync_from_difference net dl db fs rs).ok = true →
      ∃ c', (sync_from_difference net dl db fs rs).db.channelPts = some c'
        ∧ p₀ ≤ c' := by
  intro net dl db fs rs p₀ hdb hresp hok
  by_cases h0 : ptsTruthy (get_channel_pts db)
  · have heq : sync_from_difference net dl db fs rs = diffLoop net dl rs p₀ db fs := by
      unfold sync_from_difference get_channel_pts
      unfold get_channel_pts at h0
      rw [hdb] at h0 ⊢
      simp [h0]
    rw [heq]
    exact diffLoop_cursor_lower_bound rs net dl p₀ p₀ p₀ db fs hresp hdb le_rfl
  · exfalso
    have heq : sync_from_difference net dl db fs rs = ⟨false, db, fs, []⟩ := by
      unfold sync_from_difference
      simp [h0]
    rw [heq] at hok
    simp at hok

/-- C7 witness: starting from stored pts 5, an Empty response carrying
pts 7 leaves a stored pts of at least 5. -/
theorem diff_cursor_monotone_witness :
    ∃ c', (sync_from_difference [] false ⟨[], [], some 5⟩ []
      [DiffResponse.empty 7]).db.channelPts = some c' ∧ (5 : Int) ≤ c' :=
  diff_cursor_monotone [] false ⟨[], [], some 5⟩ [] [DiffResponse.empty 7] 5 rfl
    (by
      intro r hr q hq
      rcases List.mem_singleton.mp hr with rfl
      simp [respPts] at hq
      omega)
    (by decide)

/-- A message of topic 2 used by the C4 counterexample. -/
def m2C4 : Msg := ⟨9, false, some "x", some 2, false, false, "d"⟩

/-- Environment for the C4 counterexample: two topics; topic 1's history
iteration raises, topic 2's yields one message. -/
def envC4 : Env :=
  ⟨true, some [⟨1, "A"⟩, ⟨2, "B"⟩], [],
   [(1, [IterItem.iterErr]), (2, [IterItem.msg m2C4])], some 99, []⟩

/-- Same environment with topic 1's iteration healthy. -/
def envC4ok : Env :=
  ⟨true, some [⟨1, "A"⟩, ⟨2, "B"⟩], [],
   [(1, []), (2, [IterItem.msg m2C4])], some 99, []⟩

/-- C4 counterexample: during the full-sync fallback a failure in topic 1
prevents topic 2 from being synced — the run stops after the topic
upserts, emits no store operation for topic 2 and reports failure, whereas
with topic 1 healthy the very same environment syncs topic 2 (its batch
upsert and prune appear) and re-baselines the cursor.  This falsifies
"a failure while syncing one topic does not prevent the remaining topics
from being synced". -/
theorem full_sync_topic_failure_counterexample :
    (run_sync envC4 false false dbEmpty []).ok = false
    ∧ (run_sync envC4 false false dbEmpty []).ops
        = [StoreOp.topicUp 1 "A", StoreOp.topicUp 2 "B"]
    ∧ (run_sync envC4ok false false dbEmpty []).ok = true
    ∧ (run_sync envC4ok false false dbEmpty []).ops
        = [StoreOp.topicUp 1 "A", StoreOp.topicUp 2 "B",
           StoreOp.pruneOp 1 [], StoreOp.batchUp [⟨9, 2, 9, "x", none, "text", "d"⟩],
           StoreOp.pruneOp 2 [9], StoreOp.setPtsOp 99] := by
  decide

/-- C4 amended: the fallback loop runs the full-sync engine topic by
topic, but a topic whose iteration raises aborts the pass: the result is
exactly the outcome of the successfully synced prefix, marked failed —
topics after the failing one contribute no store operation and are not
synced. -/
theorem runTopics_cons_succeeds (net : Net) (dl : Bool) (streams : Streams)
    (t : Topic) (rest : List Topic) (db : DB) (fs : FS)
    (h : (sync_bookmarks_with_client net dl (streamOf streams t.id) t.id db fs).ok = true) :
    runTopics net dl streams (t :: rest) db fs =
      ⟨(runTopics net dl streams rest
          (sync_bookmarks_with_client net dl (streamOf streams t.id) t.id db fs).db
          (sync_bookmarks_with_client net dl (streamOf streams t.id) t.id db fs).fs).ok,
        (runTopics net dl streams rest
          (sync_bookmarks_with_client net dl (streamOf streams t.id) t.id db fs).db
          (sync_bookmarks_with_client net dl (streamOf streams t.id) t.id db fs).fs).db,
        (runTopics net dl streams rest
          (sync_bookmarks_with_client net dl (streamOf streams t.id) t.id db fs).db
          (sync_bookmarks_with_client net dl (streamOf streams t.id) t.id db fs).fs).fs,
        (sync_bookmarks_with_client net dl (streamOf streams t.id) t.id db fs).ops
          ++ (runTopics net dl streams rest
                (sync_bookmarks_with_client net dl (streamOf streams t.id) t.id db fs).db
                (sync_bookmarks_with_client net dl (streamOf streams t.id) t.id db fs).fs).ops⟩ := by
  rw [runTopics_cons]
  simp [h]

theorem runTopics_cons_raises (net : Net) (dl : Bool) (streams : Streams)
    (t : Topic) (rest : List Topic) (db : DB) (fs : FS)
    (h : (sync_bookmarks_with_client net dl (streamOf streams t.id) t.id db fs).ok = false) :
    runTopics net dl streams (t :: rest) db fs =
      ⟨false, (sync_bookmarks_with_client net dl (streamOf streams t.id) t.id db fs).db,
        (sync_bookmarks_with_client net dl (streamOf streams t.id) t.id db fs).fs,
        (sync_bookmarks_with_client net dl (streamOf streams t.id) t.id db fs).ops⟩ := by
  rw [runTopics_cons]
  simp [h]

theorem full_sync_topic_failure_aborts_run :
    ∀ (net : Net) (dl : Bool) (streams : Streams) (pre post : List Topic) (t : Topic)
      (db : DB) (fs : FS),
      IterItem.iterErr ∈ streamOf streams t.id →
      (runTopics net dl streams pre db fs).ok = true →
      ∃ fsE, runTopics net dl streams (pre ++ t :: post) db fs
        = ⟨false, (runTopics net dl streams pre db fs).db, fsE,
            (runTopics net dl streams pre db fs).ops⟩ := by
  intro net dl streams pre
  induction pre with
  | nil =>
    intro post t db fs hmem hok
    obtain ⟨fsE, hE⟩ := sync_bookmarks_raises_uncommitted net dl t.id db fs _ hmem
    refine ⟨fsE, ?_⟩
    have hr : (sync_bookmarks_with_client net dl (streamOf streams t.id) t.id db fs).ok
        = false := by rw [hE]
    rw [List.nil_append, runTopics_cons_raises _ _ _ _ _ _ _ hr, hE]
    rfl
  | cons t₀ pre' ih =>
    intro post t db fs hmem hok
    cases hr : (sync_bookmarks_with_client net dl (streamOf streams t₀.id) t₀.id db fs).ok with
    | false =>
      rw [runTopics_cons_raises _ _ _ _ _ _ _ hr] at hok
      simp at hok
    | true =>
      rw [runTopics_cons_succeeds _ _ _ _ _ _ _ hr] at hok
      have hok' : (runTopics net dl streams pre'
          (sync_bookmarks_with_client net dl (streamOf streams t₀.id) t₀.id db fs).db
          (sync_bookmarks_with_client net dl (streamOf streams t₀.id) t₀.id db fs).fs).ok
          = true := hok
      obtain ⟨fsE, hE⟩ := ih post t _ _ hmem hok'
      refine ⟨fsE, ?_⟩
      rw [List.cons_append, runTopics_cons_succeeds _ _ _ _ _ _ _ hr, hE,
        runTopics_cons_succeeds _ _ _ _ _ _ _ hr]

/-- C4 amended witness: with topic 1's stream raising, the concrete
two-topic list aborts right away with the empty prefix's outcome. -/
theorem full_sync_topic_failure_aborts_run_witness :
    ∃ fsE, runTopics [] false [(1, [IterItem.iterErr])]
        ([] ++ (⟨1, "A"⟩ : Topic) :: [(⟨2, "B"⟩ : Topic)]) dbEmpty []
      = ⟨false, (runTopics [] false [(1, [IterItem.iterErr])] [] dbEmpty []).db, fsE,
          (runTopics [] false [(1, [IterItem.iterErr])] [] dbEmpty []).ops⟩ :=
  full_sync_topic_failure_aborts_run [] false [(1, [IterItem.iterErr])] [] [⟨2, "B"⟩]
    ⟨1, "A"⟩ dbEmpty [] (by decide) (by decide)

/-- Refreshing the topic list only touches the topics table. -/
theorem foldl_upsert_topic_channelPts :
    ∀ (ts : List Topic) (db : DB),
      (ts.foldl (fun d t => upsert_topic t.id t.title d) db).channelPts
        = db.channelPts := by
  intro ts
  induction ts with
  | nil => intro db; rfl
  | cons t rest ih =>
    intro db
    rw [List.foldl_cons, ih]
    rfl

/-- A falsy stored cursor makes the differential engine signal "full sync
required" without touching anything. -/
theorem sync_from_difference_no_cursor (net : Net) (dl : Bool) (db : DB) (fs : FS)
    (rs : List DiffResponse) (h : db.channelPts = none) :
    sync_from_difference net dl db fs rs = ⟨false, db, fs, []⟩ := by
  unfold sync_from_difference get_channel_pts
  rw [h]
  rfl

/-- A topic iteration that never raises reaches the end of the loop. -/
theorem fullSyncLoop_ok_of_no_err :
    ∀ (items : List IterItem) (net : Net) (dl : Bool) (tid : Int) (fs : FS)
      (found : List Int) (buf : List Bm),
      IterItem.iterErr ∉ items →
      ∃ fs' found' buf',
        fullSyncLoop net dl tid items fs found buf = .ok (fs', found', buf') := by
  intro items
  induction items with
  | nil => intro net dl tid fs found buf _; exact ⟨fs, found, buf, rfl⟩
  | cons it rest ih =>
    intro net dl tid fs found buf h
    cases it with
    | iterErr => exact absurd (List.mem_cons_self _ _) h
    | msg m =>
      have hr : IterItem.iterErr ∉ rest := fun hm => h (List.mem_cons_of_mem _ hm)
      rw [fullSyncLoop_cons_msg]
      cases hp : process_message_object fs m tid with
      | none => exact ih net dl tid fs found buf hr
      | some bm => exact ih net dl tid _ _ _ hr

/-- A healthy topic sync reports success and its trace contains the
topic's prune. -/
theorem sync_bookmarks_ok_of_no_err (net : Net) (dl : Bool) (stream : List IterItem)
    (tid : Int) (db : DB) (fs : FS) (h : IterItem.iterErr ∉ stream) :
    (sync_bookmarks_with_client net dl stream tid db fs).ok = true
    ∧ ∃ a, StoreOp.pruneOp tid a
        ∈ (sync_bookmarks_with_client net dl stream tid db fs).ops := by
  obtain ⟨fs', found', buf', hE⟩ := fullSyncLoop_ok_of_no_err stream net dl tid fs [] [] h
  unfold sync_bookmarks_with_client
  rw [hE]
  refine ⟨rfl, found', ?_⟩
  exact List.mem_append_right _ (List.mem_singleton.mpr rfl)

/-- A fallback pass over topics whose iterations never raise succeeds and
prunes every topic in the list. -/
theorem runTopics_ok_of_no_err :
    ∀ (ts : List Topic) (net : Net) (dl : Bool) (streams : Streams) (db : DB) (fs : FS),
      (∀ t ∈ ts, IterItem.iterErr ∉ streamOf streams t.id) →
      (runTopics net dl streams ts db fs).ok = true
      ∧ ∀ t ∈ ts, ∃ a, StoreOp.pruneOp t.id a ∈ (runTopics net dl streams ts db fs).ops := by
  intro ts
  induction ts with
  | nil =>
    intro net dl streams db fs _
    exact ⟨rfl, by intro t ht; simp at ht⟩
  | cons t₀ rest ih =>
    intro net dl streams db fs h
    obtain ⟨hok₀, a₀, ha₀⟩ := sync_bookmarks_ok_of_no_err net dl (streamOf streams t₀.id)
      t₀.id db fs (h t₀ (List.mem_cons_self _ _))
    have hrest := ih net dl streams
      (sync_bookmarks_with_client net dl (streamOf streams t₀.id) t₀.id db fs).db
      (sync_bookmarks_with_client net dl (streamOf streams t₀.id) t₀.id db fs).fs
      (fun t ht => h t (List.mem_cons_of_mem _ ht))
    rw [runTopics_cons_succeeds _ _ _ _ _ _ _ hok₀]
    refine ⟨hrest.1, ?_⟩
    intro t ht
    rcases List.mem_cons.mp ht with rfl | ht'
    · exact ⟨a₀, List.mem_append_left _ ha₀⟩
    · obtain ⟨a, ha⟩ := hrest.2 t ht'
      exact ⟨a, List.mem_append_right _ ha⟩

/-- C6: a run that starts with no stored cursor makes the differential
engine report "not viable" without applying anything, runs the full-sync
engine for every topic of the refreshed topic list (each topic's prune
appears in the run trace), succeeds, and afterwards persists the remote
source's current position as the new cursor. -/
theorem empty_cursor_full_sync_rebaseline :
    ∀ (env : Env) (db : DB) (fs : FS) (ts : List Topic) (dl : Bool) (p : Int),
      env.authorized = true →
      env.topicsReq = some ts →
      db.channelPts = none →
      (∀ t ∈ ts, IterItem.iterErr ∉ streamOf env.streams t.id) →
      env.fullChatPts = some p →
      (run_sync env dl false db fs).ok = true
      ∧ (run_sync env dl false db fs).db.channelPts = some p
      ∧ (∀ t ∈ ts, ∃ a, StoreOp.pruneOp t.id a ∈ (run_sync env dl false db fs).ops)
      ∧ (∀ (db' : DB) (fs' : FS) (rs : List DiffResponse), db'.channelPts = none →
          sync_from_difference env.net dl db' fs' rs = ⟨false, db', fs', []⟩) := by
  intro env db fs ts dl p hA hT hnone hstreams hp
  have hnone1 : (ts.foldl (fun d t => upsert_topic t.id t.title d) db).channelPts
      = none := by
    rw [foldl_upsert_topic_channelPts]
    exact hnone
  obtain ⟨hfok, hprune⟩ := runTopics_ok_of_no_err ts env.net dl env.streams
    (ts.foldl (fun d t => upsert_topic t.id t.title d) db) fs hstreams
  have heq : run_sync env dl false db fs =
      ⟨true,
        set_channel_pts p (runTopics env.net dl env.streams ts
          (ts.foldl (fun d t => upsert_topic t.id t.title d) db) fs).db,
        (runTopics env.net dl env.streams ts
          (ts.foldl (fun d t => upsert_topic t.id t.title d) db) fs).fs,
        ts.map (fun t => StoreOp.topicUp t.id t.title)
          ++ (runTopics env.net dl env.streams ts
                (ts.foldl (fun d t => upsert_topic t.id t.title d) db) fs).ops
          ++ [StoreOp.setPtsOp p]⟩ := by
    unfold run_sync
    rw [hA, hT]
    simp only [Bool.not_true, Bool.false_eq_true, if_false]
    rw [sync_from_difference_no_cursor env.net dl _ fs env.diff hnone1]
    simp only [Bool.false_eq_true, if_false]
    rw [hfok]
    simp only [if_true]
    rw [hp]
    simp
  rw [heq]
  refine ⟨rfl, rfl, ?_, ?_⟩
  · intro t ht
    obtain ⟨a, ha⟩ := hprune t ht
    exact ⟨a, List.mem_append_left _ (List.mem_append_right _ ha)⟩
  · intro db' fs' rs h'
    exact sync_from_difference_no_cursor env.net dl db' fs' rs h'

/-- Environment for the C6 witness: one topic, empty history, remote
position 42. -/
def envC6 : Env := ⟨true, some [⟨1, "A"⟩], [], [(1, [])], some 42, []⟩

/-- C6 witness: with no stored cursor, the concrete run succeeds, prunes
topic 1 and persists the remote position 42. -/
theorem empty_cursor_full_sync_rebaseline_witness :
    (run_sync envC6 false false dbEmpty []).ok = true
    ∧ (run_sync envC6 false false dbEmpty []).db.channelPts = some 42
    ∧ (∀ t ∈ [(⟨1, "A"⟩ : Topic)], ∃ a,
        StoreOp.pruneOp t.id a ∈ (run_sync envC6 false false dbEmpty []).ops)
    ∧ (∀ (db' : DB) (fs' : FS) (rs : List DiffResponse), db'.channelPts = none →
        sync_from_difference envC6.net false db' fs' rs = ⟨false, db', fs', []⟩) :=
  empty_cursor_full_sync_rebaseline envC6 dbEmpty [] [⟨1, "A"⟩] false 42 rfl rfl rfl
    (by decide) rfl

/-! ### The message-id invariant machinery (C10) -/

/-- Every bookmark row of the store carries `message_id = id`. -/
def MsgIdInv (db : DB) : Prop := ∀ b ∈ db.bookmarks, b.message_id = b.id

theorem process_message_object_msgId (fs : FS) (m : Msg) (tid : Int) (dl : Bool)
    (bm : Bm) (h : process_message_object fs m tid dl = some bm) :
    bm.message_id = bm.id := by
  unfold process_message_object at h
  split at h
  · exact Option.noConfusion h
  · simp only [Option.some.injEq] at h
    subst h
    rfl

theorem download_bookmark_media_msgId (net : Net) (mo : Option Msg) (bm : Bm)
    (dl : Bool) (fs : FS) :
    (download_bookmark_media net mo bm dl fs).bm.message_id = bm.message_id
    ∧ (download_bookmark_media net mo bm dl fs).bm.id = bm.id := by
  unfold download_bookmark_media
  cases mo with
  | none => exact ⟨rfl, rfl⟩
  | some m =>
    constructor
    all_goals dsimp only
    all_goals repeat' split
    all_goals simp

theorem processNewMessages_cons (net : Net) (dl : Bool) (m : Msg) (rest : List Msg)
    (fs : FS) :
    processNewMessages net dl (m :: rest) fs =
      match (if replyTruthy m then some (m.replyTo.getD 0)
             else if m.id == 1 then some 1 else none : Option Int) with
      | none => processNewMessages net dl rest fs
      | some t =>
        match process_message_object fs m t with
        | none => processNewMessages net dl rest fs
        | some bm =>
          ((processNewMessages net dl rest
              (download_bookmark_media net (some m) bm dl fs).fs).1,
           (download_bookmark_media net (some m) bm dl fs).bm
             :: (processNewMessages net dl rest
                  (download_bookmark_media net (some m) bm dl fs).fs).2) := rfl

theorem processOtherUpdates_newMsg (net : Net) (dl : Bool) (m : Msg)
    (rest : List Upd) (fs : FS) :
    processOtherUpdates net dl (Upd.newMsg m :: rest) fs
      = processOtherUpdates net dl rest fs := rfl

theorem processOtherUpdates_del (net : Net) (dl : Bool) (ids : List Int)
    (rest : List Upd) (fs : FS) :
    processOtherUpdates net dl (Upd.del ids :: rest) fs
      = ((processOtherUpdates net dl rest fs).1,
         (processOtherUpdates net dl rest fs).2.1,
         ids ++ (processOtherUpdates net dl rest fs).2.2) := rfl

theorem processOtherUpdates_edit (net : Net) (dl : Bool) (m : Msg)
    (rest : List Upd) (fs : FS) :
    processOtherUpdates net dl (Upd.edit m :: rest) fs =
      match (if replyTruthy m then some (m.replyTo.getD 0) else none : Option Int) with
      | none => processOtherUpdates net dl rest fs
      | some t =>
        match process_message_object fs m t with
        | none => processOtherUpdates net dl rest fs
        | some bm =>
          ((processOtherUpdates net dl rest
              (download_bookmark_media net (some m) bm dl fs).fs).1,
           (download_bookmark_media net (some m) bm dl fs).bm
             :: (processOtherUpdates net dl rest
                  (download_bookmark_media net (some m) bm dl fs).fs).2.1,
           (processOtherUpdates net dl rest
              (download_bookmark_media net (some m) bm dl fs).fs).2.2) := rfl

theorem processNewMessages_msgId :
    ∀ (ms : List Msg) (net : Net) (dl : Bool) (fs : FS),
      ∀ b ∈ (processNewMessages net dl ms fs).2, b.message_id = b.id := by
  intro ms
  induction ms with
  | nil => intro net dl fs b hb; simp [processNewMessages] at hb
  | cons m rest ih =>
    intro net dl fs b hb
    rw [processNewMessages_cons] at hb
    split at hb
    · exact ih net dl fs b hb
    · rename_i t hto
      split at hb
      · exact ih net dl fs b hb
      · rename_i bm hp
        rcases List.mem_cons.mp hb with rfl | hbr
        · have h1 := download_bookmark_media_msgId net (some m) bm dl fs
          have h2 := process_message_object_msgId fs m t false bm hp
          rw [h1.1, h1.2]
          exact h2
        · exact ih net dl _ b hbr

theorem processOtherUpdates_msgId :
    ∀ (us : List Upd) (net : Net) (dl : Bool) (fs : FS),
      ∀ b ∈ (processOtherUpdates net dl us fs).2.1, b.message_id = b.id := by
  intro us
  induction us with
  | nil => intro net dl fs b hb; simp [processOtherUpdates] at hb
  | cons u rest ih =>
    intro net dl fs b hb
    cases u with
    | newMsg m =>
      rw [processOtherUpdates_newMsg] at hb
      exact ih net dl fs b hb
    | del ids =>
      rw [processOtherUpdates_del] at hb
      exact ih net dl fs b hb
    | edit m =>
      rw [processOtherUpdates_edit] at hb
      split at hb
      · exact ih net dl fs b hb
      · rename_i t hto
        split at hb
        · exact ih net dl fs b hb
        · rename_i bm hp
          rcases List.mem_cons.mp hb with rfl | hbr
          · have h1 := download_bookmark_media_msgId net (some m) bm dl fs
            have h2 := process_message_object_msgId fs m t false bm hp
            rw [h1.1, h1.2]
            exact h2
          · exact ih net dl _ b hbr

theorem tableUpsert_msgId (b : Bm) (rows : List Bm)
    (hb : b.message_id = b.id) (hrows : ∀ r ∈ rows, r.message_id = r.id) :
    ∀ r ∈ tableUpsert b rows, r.message_id = r.id := by
  intro r hr
  unfold tableUpsert at hr
  split at hr
  · rcases List.mem_map.mp hr with ⟨r₀, hr₀, heq⟩
    by_cases h : (r₀.id == b.id) = true
    · rw [if_pos h] at heq
      rw [← heq]
      exact hb
    · rw [if_neg h] at heq
      rw [← heq]
      exact hrows r₀ hr₀
  · rcases List.mem_append.mp hr with h | h
    · exact hrows r h
    · rcases List.mem_singleton.mp h with rfl
      exact hb

theorem foldl_tableUpsert_msgId :
    ∀ (items : List Bm) (rows : List Bm),
      (∀ b ∈ items, b.message_id = b.id) → (∀ r ∈ rows, r.message_id = r.id) →
      ∀ r ∈ items.foldl (fun rs b => tableUpsert b rs) rows, r.message_id = r.id := by
  intro items
  induction items with
  | nil => intro rows _ hrows; exact hrows
  | cons b rest ih =>
    intro rows hitems hrows
    rw [List.foldl_cons]
    exact ih (tableUpsert b rows)
      (fun x hx => hitems x (List.mem_cons_of_mem _ hx))
      (tableUpsert_msgId b rows (hitems b (List.mem_cons_self _ _)) hrows)

theorem upsert_bookmarks_batch_msgId (items : List Bm) (db : DB)
    (hitems : ∀ b ∈ items, b.message_id = b.id) (hdb : MsgIdInv db) :
    MsgIdInv (upsert_bookmarks_batch items db) := by
  unfold upsert_bookmarks_batch
  split
  · exact hdb
  · exact foldl_tableUpsert_msgId items db.bookmarks hitems hdb

theorem delete_bookmarks_by_ids_msgId (ids : List Int) (db : DB) (hdb : MsgIdInv db) :
    MsgIdInv (delete_bookmarks_by_ids ids db) := by
  unfold delete_bookmarks_by_ids
  split
  · exact hdb
  · intro b hb
    exact hdb b (List.mem_of_mem_filter hb)

theorem prune_bookmarks_msgId (tid : Int) (a : List Int) (db : DB) (hdb : MsgIdInv db) :
    MsgIdInv (prune_bookmarks tid a db) := by
  unfold prune_bookmarks
  split
  · intro b hb
    exact hdb b (List.mem_of_mem_filter hb)
  · intro b hb
    exact hdb b (List.mem_of_mem_filter hb)

theorem set_channel_pts_msgId (p : Int) (db : DB) (hdb : MsgIdInv db) :
    MsgIdInv (set_channel_pts p db) := hdb

theorem upsert_topic_msgId (i : Int) (ttl : String) (db : DB) (hdb : MsgIdInv db) :
    MsgIdInv (upsert_topic i ttl db) := hdb

theorem foldl_upsert_topic_msgId (ts : List Topic) (db : DB) (hdb : MsgIdInv db) :
    MsgIdInv (ts.foldl (fun d t => upsert_topic t.id t.title d) db) := by
  induction ts generalizing db with
  | nil => exact hdb
  | cons t rest ih =>
    rw [List.foldl_cons]
    exact ih (upsert_topic t.id t.title db) hdb

theorem pageDataApply_msgId (nbs : List Bm) (dels : List Int) (db : DB)
    (hnbs : ∀ b ∈ nbs, b.message_id = b.id) (hdb : MsgIdInv db) :
    MsgIdInv (pageDataApply nbs dels db).1 := by
  unfold pageDataApply
  dsimp only
  split
  · split
    · exact hdb
    · exact upsert_bookmarks_batch_msgId nbs db hnbs hdb
  · split
    · exact delete_bookmarks_by_ids_msgId dels db hdb
    · exact delete_bookmarks_by_ids_msgId dels _
        (upsert_bookmarks_batch_msgId nbs db hnbs hdb)

theorem pageData_msgId (net : Net) (dl : Bool) (fs : FS) (nm : List Msg)
    (up : List Upd) :
    ∀ b ∈ (pageData net dl fs nm up).2.1, b.message_id = b.id := by
  intro b hb
  unfold pageData at hb
  dsimp only at hb
  rcases List.mem_append.mp hb with h | h
  · exact processNewMessages_msgId nm net dl fs b h
  · exact processOtherUpdates_msgId up net dl _ b h

theorem applyDiffPage_msgId (net : Net) (dl : Bool) (db : DB) (fs : FS)
    (nm : List Msg) (up : List Upd) (rpts : Int) (hdb : MsgIdInv db) :
    MsgIdInv (applyDiffPage net dl db fs nm up rpts).db := by
  unfold applyDiffPage
  dsimp only
  exact set_channel_pts_msgId rpts _
    (pageDataApply_msgId _ _ db (pageData_msgId net dl fs nm up) hdb)

theorem diffLoop_msgId :
    ∀ (rs : List DiffResponse) (net : Net) (dl : Bool) (pts : Int) (db : DB) (fs : FS),
      MsgIdInv db → MsgIdInv (diffLoop net dl rs pts db fs).db := by
  intro rs
  induction rs with
  | nil => intro net dl pts db fs hdb; exact hdb
  | cons r rest ih =>
    intro net dl pts db fs hdb
    cases r with
    | err => exact hdb
    | tooLong => exact hdb
    | empty rpts =>
      rw [diffLoop_empty_eq]
      split
      · exact set_channel_pts_msgId rpts db hdb
      · exact hdb
    | page nm up rpts fin =>
      rw [diffLoop_page_eq]
      dsimp only
      split
      · exact applyDiffPage_msgId net dl db fs nm up rpts hdb
      · exact ih net dl rpts _ _ (applyDiffPage_msgId net dl db fs nm up rpts hdb)

theorem sync_from_difference_msgId (net : Net) (dl : Bool) (db : DB) (fs : FS)
    (rs : List DiffResponse) (hdb : MsgIdInv db) :
    MsgIdInv (sync_from_difference net dl db fs rs).db := by
  unfold sync_from_difference
  dsimp only
  split
  · exact hdb
  · exact diffLoop_msgId rs net dl _ db fs hdb

theorem fullSyncLoop_buf_msgId :
    ∀ (items : List IterItem) (net : Net) (dl : Bool) (tid : Int) (fs : FS)
      (found : List Int) (buf : List Bm) (out : FS × List Int × List Bm),
      (∀ b ∈ buf, b.message_id = b.id) →
      fullSyncLoop net dl tid items fs found buf = .ok out →
      ∀ b ∈ out.2.2, b.message_id = b.id := by
  intro items
  induction items with
  | nil =>
    intro net dl tid fs found buf out hbuf hE
    cases hE
    exact hbuf
  | cons it rest ih =>
    intro net dl tid fs found buf out hbuf hE
    cases it with
    | iterErr => cases hE
    | msg m =>
      rw [fullSyncLoop_cons_msg] at hE
      dsimp only at hE
      split at hE
      · exact ih net dl tid fs found buf out hbuf hE
      · rename_i bm hp
        refine ih net dl tid _ _ _ out ?_ hE
        intro b hb
        rcases List.mem_append.mp hb with h | h
        · exact hbuf b h
        · rcases List.mem_singleton.mp h with rfl
          have h1 := download_bookmark_media_msgId net (some m) bm dl fs
          have h2 := process_message_object_msgId fs m tid false bm hp
          rw [h1.1, h1.2]
          exact h2

theorem sync_bookmarks_msgId (net : Net) (dl : Bool) (stream : List IterItem)
    (tid : Int) (db : DB) (fs : FS) (hdb : MsgIdInv db) :
    MsgIdInv (sync_bookmarks_with_client net dl stream tid db fs).db := by
  unfold sync_bookmarks_with_client
  cases hE : fullSyncLoop net dl tid stream fs [] [] with
  | error fsE => exact hdb
  | ok out =>
    obtain ⟨fs', found', buf'⟩ := out
    have hbuf : ∀ b ∈ buf', b.message_id = b.id :=
      fullSyncLoop_buf_msgId stream net dl tid fs [] [] (fs', found', buf')
        (by intro b hb; simp at hb) hE
    dsimp only
    apply prune_bookmarks_msgId
    split
    · exact hdb
    · exact upsert_bookmarks_batch_msgId buf' db hbuf hdb

theorem runTopics_msgId :
    ∀ (ts : List Topic) (net : Net) (dl : Bool) (streams : Streams) (db : DB) (fs : FS),
      MsgIdInv db → MsgIdInv (runTopics net dl streams ts db fs).db := by
  intro ts
  induction ts with
  | nil => intro net dl streams db fs hdb; exact hdb
  | cons t rest ih =>
    intro net dl streams db fs hdb
    rw [runTopics_cons]
    dsimp only
    split
    · exact ih net dl streams _ _
        (sync_bookmarks_msgId net dl (streamOf streams t.id) t.id db fs hdb)
    · exact sync_bookmarks_msgId net dl (streamOf streams t.id) t.id db fs hdb

theorem run_sync_msgId (env : Env) (dl fsy : Bool) (db : DB) (fs : FS)
    (hdb : MsgIdInv db) : MsgIdInv (run_sync env dl fsy db fs).db := by
  unfold run_sync
  split
  · exact hdb
  · split
    · exact hdb
    · rename_i ts hts
      have h1 := foldl_upsert_topic_msgId ts db hdb
      dsimp only
      by_cases hf : fsy = true
      · rw [if_pos hf]
        split
        · exact h1
        · split
          · split
            · exact set_channel_pts_msgId _ _
                (runTopics_msgId ts env.net dl env.streams _ _ h1)
            · exact runTopics_msgId ts env.net dl env.streams _ _ h1
          · exact runTopics_msgId ts env.net dl env.streams _ _ h1
      · rw [if_neg hf]
        have h2 := sync_from_difference_msgId env.net dl
          (ts.foldl (fun d t => upsert_topic t.id t.title d) db) fs env.diff h1
        split
        · exact h2
        · split
          · split
            · exact set_channel_pts_msgId _ _
                (runTopics_msgId ts env.net dl env.streams _ _ h2)
            · exact runTopics_msgId ts env.net dl env.streams _ _ h2
          · exact runTopics_msgId ts env.net dl env.streams _ _ h2

theorem upsert_bookmark_msgId (mid tid : Int) (txt : String) (mp : Option String)
    (ct dt : String) (db : DB) (hdb : MsgIdInv db) :
    MsgIdInv (upsert_bookmark mid tid txt mp ct dt db) := by
  unfold upsert_bookmark
  dsimp only
  exact tableUpsert_msgId _ db.bookmarks rfl hdb

/-- C10: every bookmark row written by any sync path carries
`message_id = id` — the dict built by `process_message_object` satisfies
it, the single `upsert_bookmark` preserves it, and a whole orchestrator
run (covering the batch upserts of both the differential and the full
sync engines, the deletes and the prunes) preserves it on the store. -/
theorem message_id_equals_id_invariant :
    (∀ (fs : FS) (m : Msg) (tid : Int) (dl : Bool) (bm : Bm),
        process_message_object fs m tid dl = some bm → bm.message_id = bm.id)
    ∧ (∀ (mid tid : Int) (txt : String) (mp : Option String) (ct dt : String) (db : DB),
        MsgIdInv db → MsgIdInv (upsert_bookmark mid tid txt mp ct dt db))
    ∧ (∀ (env : Env) (dl fsy : Bool) (db : DB) (fs : FS),
        MsgIdInv db → MsgIdInv (run_sync env dl fsy db fs).db) :=
  ⟨fun fs m tid dl bm h => process_message_object_msgId fs m tid dl bm h,
   fun mid tid txt mp ct dt db hdb => upsert_bookmark_msgId mid tid txt mp ct dt db hdb,
   fun env dl fsy db fs hdb => run_sync_msgId env dl fsy db fs hdb⟩

/-- Environment used by the C10 witness. -/
def envC10 : Env := ⟨true, some [⟨1, "A"⟩], [], [(1, [])], some 42, []⟩

/-- C10 witness: the invariant at concrete inputs — a processed message,
a single upsert into the empty store, and a full orchestrator run. -/
theorem message_id_equals_id_invariant_witness :
    (⟨8, 3, 8, "hi", none, "text", "d"⟩ : Bm).message_id
        = (⟨8, 3, 8, "hi", none, "text", "d"⟩ : Bm).id
    ∧ MsgIdInv (upsert_bookmark 5 1 "a" none "text" "d" dbEmpty)
    ∧ MsgIdInv (run_sync envC10 false false dbEmpty []).db :=
  ⟨message_id_equals_id_invariant.1 [] ⟨8, false, some "hi", some 3, false, false, "d"⟩
      3 false ⟨8, 3, 8, "hi", none, "text", "d"⟩ (by decide),
   message_id_equals_id_invariant.2.1 5 1 "a" none "text" "d" dbEmpty
      (by intro b hb; simp [dbEmpty] at hb),
   message_id_equals_id_invariant.2.2 envC10 false false dbEmpty []
      (by intro b hb; simp [dbEmpty] at hb)⟩
